import Mathlib

/-
Verification of the stake-derivation and serialization logic of
src/primitives/block.h (CBlockHeader, CBlock, CBlockLocator).

Machine integers carry no arithmetic in this code, so uint32/int32/uint256
fields are embedded as Nat/Int. Vector indexing (vtx[1], vin[0]) is embedded
with List.get?, so an out-of-range access in the C++ code shows up as a
none result of the embedded operation.
-/

namespace QtumBlock

/-- Modelled from the spec: COutPoint lives in primitives/transaction.h, which
is not part of the sources. Per the spec an outpoint is a
(transactionId, outputIndex) pair with a distinguished null value. -/
structure COutPoint where
  hash : Nat
  n : Nat
deriving DecidableEq

/-- Modelled from the spec: the null outpoint produced by COutPoint() /
COutPoint::SetNull (hash = 0, n = uint32 max). -/
def COutPoint.null : COutPoint := ⟨0, 4294967295⟩

/-- Modelled from the spec: a transaction input, of which only the
previous-output reference is consumed by this core. -/
structure CTxIn where
  prevout : COutPoint
deriving DecidableEq

/-- Modelled from the spec: the external transaction collaborator. It exposes
the coinstake marking, the input list and the timestamp, which is all this
core consumes. The coinstake marking is kept abstract as a boolean field. -/
structure CTransaction where
  coinStakeMark : Bool
  vin : List CTxIn
  nTime : Nat
deriving DecidableEq

/-- The external coinstake predicate of the transaction collaborator. -/
def CTransaction.IsCoinStake (t : CTransaction) : Bool := t.coinStakeMark

/-- CBlockHeader fields, in declaration order of the source. -/
structure CBlockHeader where
  nVersion : Int
  hashPrevBlock : Nat
  hashMerkleRoot : Nat
  nTime : Nat
  nBits : Nat
  nNonce : Nat
  hashStateRoot : Nat
  vchBlockSig : List Nat
  fStake : Bool
  prevoutStake : COutPoint
  nStakeTime : Nat
deriving DecidableEq

/-- CBlockHeader::SetNull, as the all-zero header value. -/
def CBlockHeader.SetNull : CBlockHeader :=
  ⟨0, 0, 0, 0, 0, 0, 0, [], false, COutPoint.null, 0⟩

/-- CBlockHeader::IsNull: true iff nBits is zero. -/
def CBlockHeader.IsNull (h : CBlockHeader) : Bool := h.nBits = 0

/-- CBlockHeader::GetBlockTime: widens nTime to a signed 64-bit value. -/
def CBlockHeader.GetBlockTime (h : CBlockHeader) : Int := (h.nTime : Int)

/-- CBlockHeader::IsProofOfStake: base implementation returns the stored flag. -/
def CBlockHeader.IsProofOfStake (h : CBlockHeader) : Bool := h.fStake

/-- CBlockHeader::IsProofOfWork: logical negation of IsProofOfStake. -/
def CBlockHeader.IsProofOfWork (h : CBlockHeader) : Bool := !h.IsProofOfStake

/-- CBlockHeader::PrevoutStake: base implementation returns the stored field. -/
def CBlockHeader.PrevoutStake (h : CBlockHeader) : COutPoint := h.prevoutStake

/-- CBlockHeader::StakeTime: base implementation returns the stored field. -/
def CBlockHeader.StakeTime (h : CBlockHeader) : Nat := h.nStakeTime

/-- CBlock: a CBlockHeader plus the transaction list and the memory-only
fChecked flag. -/
structure CBlock where
  header : CBlockHeader
  vtx : List CTransaction
  fChecked : Bool
deriving DecidableEq

/-- CBlock::SetNull. -/
def CBlock.SetNull : CBlock := ⟨CBlockHeader.SetNull, [], false⟩

/-- CBlock::IsProofOfStake: with an empty transaction list fall back to the
stored flag; otherwise the short-circuit conjunction
vtx.size() > 1 && vtx[1]->IsCoinStake(). -/
def CBlock.IsProofOfStake (b : CBlock) : Bool :=
  if b.vtx.length = 0 then b.header.fStake
  else decide (1 < b.vtx.length) && (b.vtx.get? 1).elim false CTransaction.IsCoinStake

/-- CBlock::PrevoutStake: with an empty transaction list fall back to the
stored field; otherwise a default-null result, overwritten with
vtx[1]->vin[0].prevout when the block is proof of stake. A none result
models an out-of-range vector access in the C++ code. -/
def CBlock.PrevoutStake (b : CBlock) : Option COutPoint :=
  if b.vtx.length = 0 then some b.header.prevoutStake
  else if b.IsProofOfStake then
    (b.vtx.get? 1).bind fun t => (t.vin.get? 0).map CTxIn.prevout
  else some COutPoint.null

/-- CBlock::StakeTime: with an empty transaction list fall back to the stored
field; otherwise a default-zero result, overwritten with vtx[1]->nTime when
the block is proof of stake. -/
def CBlock.StakeTime (b : CBlock) : Option Nat :=
  if b.vtx.length = 0 then some b.header.nStakeTime
  else if b.IsProofOfStake then (b.vtx.get? 1).map CTransaction.nTime
  else some 0

/-- CBlock::GetProofOfStake: the source has no empty-list guard here; when
IsProofOfStake() holds it evaluates vtx[1]->vin[0].prevout and vtx[1]->nTime
directly, otherwise it returns the null outpoint and zero. -/
def CBlock.GetProofOfStake (b : CBlock) : Option (COutPoint × Nat) :=
  if b.IsProofOfStake then
    (b.vtx.get? 1).bind fun t => (t.vin.get? 0).map fun i0 => (i0.prevout, t.nTime)
  else some (COutPoint.null, 0)

/-- CBlock::GetBlockHeader: a fresh header whose plain fields are copied raw
and whose stake fields are the recomputed derivations. A none result models
a fault inside the derivations. -/
def CBlock.GetBlockHeader (b : CBlock) : Option CBlockHeader :=
  match b.PrevoutStake, b.StakeTime with
  | some po, some st =>
    some ⟨b.header.nVersion, b.header.hashPrevBlock, b.header.hashMerkleRoot,
      b.header.nTime, b.header.nBits, b.header.nNonce, b.header.hashStateRoot,
      b.header.vchBlockSig, b.IsProofOfStake, po, st⟩
  | _, _ => none

/-- A header-typed handle: the source of CBlockHeader::operator= is either a
plain header or a CBlock seen through its base class, with virtual dispatch
of the stake-derivation methods. -/
inductive HeaderRef where
  | base : CBlockHeader → HeaderRef
  | blk : CBlock → HeaderRef
deriving DecidableEq

/-- Virtual dispatch of IsProofOfStake over a header-typed handle. -/
def HeaderRef.IsProofOfStake : HeaderRef → Bool
  | .base h => h.IsProofOfStake
  | .blk b => b.IsProofOfStake

/-- Virtual dispatch of PrevoutStake over a header-typed handle. -/
def HeaderRef.PrevoutStake : HeaderRef → Option COutPoint
  | .base h => some h.PrevoutStake
  | .blk b => b.PrevoutStake

/-- Virtual dispatch of StakeTime over a header-typed handle. -/
def HeaderRef.StakeTime : HeaderRef → Option Nat
  | .base h => some h.StakeTime
  | .blk b => b.StakeTime

/-- The raw CBlockHeader subobject of a header-typed handle. -/
def HeaderRef.fields : HeaderRef → CBlockHeader
  | .base h => h
  | .blk b => b.header

/-- CBlockHeader::operator=: the destination is fully overwritten, plain
fields from the raw source fields, stake fields from the virtual
derivations of the source. A none result models a fault inside the
derivations. -/
def assignHeader (src : HeaderRef) : Option CBlockHeader :=
  match src.PrevoutStake, src.StakeTime with
  | some po, some st =>
    some { src.fields with fStake := src.IsProofOfStake, prevoutStake := po, nStakeTime := st }
  | _, _ => none

/-- One serialized field, tagged with its wire type. The stream of READWRITE
calls of a SerializationOp is embedded as a list of such items. -/
inductive SerItem where
  | i32 : Int → SerItem
  | u256 : Nat → SerItem
  | u32 : Nat → SerItem
  | bytes : List Nat → SerItem
  | boolItem : Bool → SerItem
  | outpoint : COutPoint → SerItem
  | txItem : CTransaction → SerItem
  | compactSize : Nat → SerItem
deriving DecidableEq

/-- CBlockHeader::SerializationOp on the write path for a plain header: the
eleven fields in source order, the stake fields refreshed through the
derivation methods just before writing (for a plain header those return the
stored fields). -/
def serializeHeaderItems (h : CBlockHeader) : List SerItem :=
  [SerItem.i32 h.nVersion, SerItem.u256 h.hashPrevBlock, SerItem.u256 h.hashMerkleRoot,
   SerItem.u32 h.nTime, SerItem.u32 h.nBits, SerItem.u32 h.nNonce,
   SerItem.u256 h.hashStateRoot, SerItem.bytes h.vchBlockSig,
   SerItem.boolItem h.IsProofOfStake, SerItem.outpoint h.PrevoutStake,
   SerItem.u32 h.StakeTime]

/-- CBlock::SerializationOp on the write path: the header subobject is
serialized with virtual dispatch, so the stake fields are first overwritten
in place with the block-level derivations and then written, followed by the
length-prefixed transaction list. Returns the mutated block together with
the stream; none models a fault inside the derivations. -/
def CBlock.serializeBlock (b : CBlock) : Option (CBlock × List SerItem) :=
  match b.PrevoutStake, b.StakeTime with
  | some po, some st =>
    some (⟨{ b.header with fStake := b.IsProofOfStake, prevoutStake := po, nStakeTime := st },
           b.vtx, b.fChecked⟩,
      serializeHeaderItems { b.header with fStake := b.IsProofOfStake, prevoutStake := po, nStakeTime := st }
        ++ SerItem.compactSize b.vtx.length :: b.vtx.map SerItem.txItem)
  | _, _ => none

/-- CBlockHeader::SerializationOp on the read path: consume the eleven fields
in source order (the recompute-then-overwrite of the stake fields on the
read path is a no-op for a freshly constructed header). -/
def deserializeHeader : List SerItem → Option (CBlockHeader × List SerItem)
  | SerItem.i32 v :: SerItem.u256 hp :: SerItem.u256 mr :: SerItem.u32 t ::
    SerItem.u32 bi :: SerItem.u32 no :: SerItem.u256 sr :: SerItem.bytes sig ::
    SerItem.boolItem fs :: SerItem.outpoint po :: SerItem.u32 st :: rest =>
      some (⟨v, hp, mr, t, bi, no, sr, sig, fs, po, st⟩, rest)
  | _ => none

/-- Read a counted sequence of transactions. -/
def deserializeTxs : Nat → List SerItem → Option (List CTransaction × List SerItem)
  | 0, rest => some ([], rest)
  | n + 1, SerItem.txItem t :: rest =>
    (deserializeTxs n rest).map fun p => (t :: p.1, p.2)
  | _ + 1, _ => none

/-- CBlock::SerializationOp on the read path: header subobject, then the
length-prefixed transaction list; fChecked is memory-only and starts false. -/
def deserializeBlock (s : List SerItem) : Option (CBlock × List SerItem) :=
  match deserializeHeader s with
  | some (h, SerItem.compactSize n :: rest) =>
    (deserializeTxs n rest).map fun p => (⟨h, p.1, false⟩, p.2)
  | _ => none

/-- CBlockLocator: an ordered sequence of block-identity hashes. -/
structure CBlockLocator where
  vHave : List Nat
deriving DecidableEq

/-- CBlockLocator::IsNull. -/
def CBlockLocator.IsNull (loc : CBlockLocator) : Bool := loc.vHave.isEmpty

/-- CBlockLocator::SerializationOp on the write path: unless the stream type
has SER_GETHASH set, first write the stream version, then the
length-prefixed hash sequence. -/
def CBlockLocator.serializeLocator (loc : CBlockLocator) (getHashCtx : Bool) (streamVersion : Int) : List SerItem :=
  (if getHashCtx then [] else [SerItem.i32 streamVersion])
    ++ SerItem.compactSize loc.vHave.length :: loc.vHave.map SerItem.u256

/-- Read a counted sequence of hashes. -/
def deserializeHashes : Nat → List SerItem → Option (List Nat × List SerItem)
  | 0, rest => some ([], rest)
  | n + 1, SerItem.u256 h :: rest =>
    (deserializeHashes n rest).map fun p => (h :: p.1, p.2)
  | _ + 1, _ => none

/-- The hash-sequence part of the locator read path. -/
def deserializeLocatorBody : List SerItem → Option (CBlockLocator × List SerItem)
  | SerItem.compactSize n :: rest =>
    (deserializeHashes n rest).map fun p => (⟨p.1⟩, p.2)
  | _ => none

/-- CBlockLocator::SerializationOp on the read path: unless the stream type
has SER_GETHASH set, first consume the version integer (read into a local
and discarded), then the length-prefixed hash sequence. -/
def deserializeLocator (getHashCtx : Bool) : List SerItem → Option (CBlockLocator × List SerItem) :=
  fun s =>
    if getHashCtx then deserializeLocatorBody s
    else
      match s with
      | SerItem.i32 _ :: r => deserializeLocatorBody r
      | _ => none

/-- Example outpoint used by the concrete witnesses. -/
def opA : COutPoint := ⟨170, 0⟩

/-- Example coinbase-style transaction (not coinstake). -/
def txPlain : CTransaction := ⟨false, [⟨⟨0, 4294967295⟩⟩], 0⟩

/-- Example coinstake transaction, spending opA at time 1600000000. -/
def txCoinStake : CTransaction := ⟨true, [⟨opA⟩], 1600000000⟩

/-- Example header with stale stored stake fields (stored flag false). -/
def hdrEx : CBlockHeader := ⟨1, 2, 3, 4, 5, 6, 7, [8], false, COutPoint.null, 0⟩

/-- Example proof-of-stake block built over hdrEx; its stored stake fields are
stale relative to the transaction-derived values. -/
def blkEx : CBlock := ⟨hdrEx, [txPlain, txCoinStake], false⟩

/-- The header hdrEx with its stake fields materialized from blkEx. -/
def hdrExM : CBlockHeader := ⟨1, 2, 3, 4, 5, 6, 7, [8], true, opA, 1600000000⟩

/-- Example block with an empty transaction list. -/
def blkEmpty : CBlock := ⟨hdrEx, [], false⟩

/-- Example block with exactly one transaction over a header whose stored
stake fields are all set. -/
def blkOne : CBlock := ⟨⟨1, 2, 3, 4, 5, 6, 7, [8], true, opA, 99⟩, [txPlain], false⟩

theorem get?_one_length {α : Type} {l : List α} {a : α} (h : l.get? 1 = some a) :
    1 < l.length := by
  by_contra hlt
  rw [List.get?_eq_none.mpr (by omega)] at h
  exact Option.noConfusion h

/-- Claim C1: if the transaction list is empty, IsProofOfStake returns the
stored fStake flag; otherwise it returns true iff the list has more than one
transaction and the transaction at index 1 is marked coinstake. -/
theorem C1_isProofOfStake (b : CBlock) :
    (b.vtx = [] → b.IsProofOfStake = b.header.fStake) ∧
    (b.vtx ≠ [] →
      (b.IsProofOfStake = true ↔
        1 < b.vtx.length ∧ ∃ t, b.vtx.get? 1 = some t ∧ t.IsCoinStake = true)) := by
  constructor
  · intro h
    simp [CBlock.IsProofOfStake, h]
  · intro h
    have h0 : b.vtx.length ≠ 0 := by simpa [List.length_eq_zero] using h
    simp only [CBlock.IsProofOfStake, if_neg h0, Bool.and_eq_true, decide_eq_true_eq]
    constructor
    · rintro ⟨h1, h2⟩
      rcases hg : b.vtx.get? 1 with _ | t
      · rw [hg] at h2
        simp [Option.elim] at h2
      · rw [hg] at h2
        exact ⟨h1, t, rfl, by simpa [Option.elim] using h2⟩
    · rintro ⟨h1, t, hg, hc⟩
      rw [hg]
      exact ⟨h1, by simpa [Option.elim] using hc⟩

/-- Claim C1 witness: concrete instances of both branches. -/
theorem C1_isProofOfStake_witness :
    (blkEmpty.IsProofOfStake = blkEmpty.header.fStake) ∧
    (blkEx.IsProofOfStake = true ↔
      1 < blkEx.vtx.length ∧ ∃ t, blkEx.vtx.get? 1 = some t ∧ t.IsCoinStake = true) :=
  ⟨(C1_isProofOfStake blkEmpty).1 rfl, (C1_isProofOfStake blkEx).2 (by decide)⟩

/-- Claim C2: a block whose transaction at index 1 is marked coinstake is
proof of stake, PrevoutStake returns the previous output of that
transaction's first input, and StakeTime returns its timestamp. -/
theorem C2_posDerivations (b : CBlock) (t : CTransaction) (i0 : CTxIn)
    (h1 : b.vtx.get? 1 = some t) (hcs : t.IsCoinStake = true)
    (hin : t.vin.get? 0 = some i0) :
    b.IsProofOfStake = true ∧ b.PrevoutStake = some i0.prevout ∧
      b.StakeTime = some t.nTime := by
  have hlt : 1 < b.vtx.length := get?_one_length h1
  have h0 : ¬ b.vtx.length = 0 := by omega
  have hpos : b.IsProofOfStake = true := by
    unfold CBlock.IsProofOfStake
    rw [if_neg h0, h1, decide_eq_true hlt, Bool.true_and]
    exact hcs
  refine ⟨hpos, ?_, ?_⟩
  · unfold CBlock.PrevoutStake
    rw [if_neg h0, if_pos hpos, h1]
    show (t.vin.get? 0).map CTxIn.prevout = some i0.prevout
    rw [hin]
    rfl
  · unfold CBlock.StakeTime
    rw [if_neg h0, if_pos hpos, h1]
    rfl

/-- Claim C2 witness: the concrete proof-of-stake block. -/
theorem C2_posDerivations_witness :
    blkEx.IsProofOfStake = true ∧ blkEx.PrevoutStake = some opA ∧
      blkEx.StakeTime = some 1600000000 :=
  C2_posDerivations blkEx txCoinStake ⟨opA⟩ (by decide) (by decide) (by decide)

/-- Claim C6: a block with at least two transactions whose transaction at
index 1 is not marked coinstake is not proof of stake, PrevoutStake returns
the null outpoint, and StakeTime returns zero. -/
theorem C6_notCoinStake (b : CBlock) (t : CTransaction)
    (h1 : b.vtx.get? 1 = some t) (hcs : t.IsCoinStake = false) :
    b.IsProofOfStake = false ∧ b.PrevoutStake = some COutPoint.null ∧
      b.StakeTime = some 0 := by
  have hlt : 1 < b.vtx.length := get?_one_length h1
  have h0 : ¬ b.vtx.length = 0 := by omega
  have hpos : b.IsProofOfStake = false := by
    unfold CBlock.IsProofOfStake
    rw [if_neg h0, h1]
    show (decide (1 < b.vtx.length) && t.IsCoinStake) = false
    rw [hcs, Bool.and_false]
  have hpos' : ¬ b.IsProofOfStake = true := by rw [hpos]; exact Bool.false_ne_true
  refine ⟨hpos, ?_, ?_⟩
  · unfold CBlock.PrevoutStake
    rw [if_neg h0, if_neg hpos']
  · unfold CBlock.StakeTime
    rw [if_neg h0, if_neg hpos']

/-- Claim C6 witness: two transactions, index 1 not coinstake. -/
theorem C6_notCoinStake_witness :
    (CBlock.mk hdrExM [txCoinStake, txPlain] false).IsProofOfStake = false ∧
    (CBlock.mk hdrExM [txCoinStake, txPlain] false).PrevoutStake = some COutPoint.null ∧
    (CBlock.mk hdrExM [txCoinStake, txPlain] false).StakeTime = some 0 :=
  C6_notCoinStake (CBlock.mk hdrExM [txCoinStake, txPlain] false) txPlain
    (by decide) (by decide)

/-- Claim C10: with exactly one transaction the block is not proof of stake,
PrevoutStake is the null outpoint and StakeTime is zero; the stored header
fallbacks are not consulted. -/
theorem C10_singleTx (b : CBlock) (h : b.vtx.length = 1) :
    b.IsProofOfStake = false ∧ b.PrevoutStake = some COutPoint.null ∧
      b.StakeTime = some 0 := by
  have h0 : ¬ b.vtx.length = 0 := by omega
  have hpos : b.IsProofOfStake = false := by
    unfold CBlock.IsProofOfStake
    rw [if_neg h0, h]
    rfl
  have hpos' : ¬ b.IsProofOfStake = true := by rw [hpos]; exact Bool.false_ne_true
  refine ⟨hpos, ?_, ?_⟩
  · unfold CBlock.PrevoutStake
    rw [if_neg h0, if_neg hpos']
  · unfold CBlock.StakeTime
    rw [if_neg h0, if_neg hpos']

/-- Claim C10 witness: one transaction over a header whose stored stake
fields are all nonzero, showing the fallbacks are not used. -/
theorem C10_singleTx_witness :
    blkOne.IsProofOfStake = false ∧ blkOne.PrevoutStake = some COutPoint.null ∧
      blkOne.StakeTime = some 0 :=
  C10_singleTx blkOne (by decide)

/-- Claim C3: GetBlockHeader copies the plain header fields raw and fills the
stake fields with the recomputed IsProofOfStake, PrevoutStake and StakeTime
results, never the stored values. -/
theorem C3_getBlockHeader (b : CBlock) (h : CBlockHeader)
    (hg : b.GetBlockHeader = some h) :
    h.nVersion = b.header.nVersion ∧ h.hashPrevBlock = b.header.hashPrevBlock ∧
    h.hashMerkleRoot = b.header.hashMerkleRoot ∧ h.nTime = b.header.nTime ∧
    h.nBits = b.header.nBits ∧ h.nNonce = b.header.nNonce ∧
    h.hashStateRoot = b.header.hashStateRoot ∧
    h.vchBlockSig = b.header.vchBlockSig ∧
    h.fStake = b.IsProofOfStake ∧ some h.prevoutStake = b.PrevoutStake ∧
    some h.nStakeTime = b.StakeTime := by
  unfold CBlock.GetBlockHeader at hg
  rcases hpo : b.PrevoutStake with _ | po <;> rw [hpo] at hg
  · exact Option.noConfusion hg
  rcases hst : b.StakeTime with _ | st <;> rw [hst] at hg
  · exact Option.noConfusion hg
  cases Option.some.inj hg
  exact ⟨rfl, rfl, rfl, rfl, rfl, rfl, rfl, rfl, rfl, rfl, rfl⟩

/-- Claim C3 witness: the concrete block blkEx has stale stored stake fields;
the snapshot header carries the recomputed values. -/
theorem C3_getBlockHeader_witness :
    hdrExM.fStake = blkEx.IsProofOfStake ∧
      some hdrExM.prevoutStake = blkEx.PrevoutStake ∧
      some hdrExM.nStakeTime = blkEx.StakeTime :=
  ⟨(C3_getBlockHeader blkEx hdrExM (by decide)).2.2.2.2.2.2.2.2.1,
   (C3_getBlockHeader blkEx hdrExM (by decide)).2.2.2.2.2.2.2.2.2.1,
   (C3_getBlockHeader blkEx hdrExM (by decide)).2.2.2.2.2.2.2.2.2.2⟩

/-- Claim C4: after the assignment the destination stored stake fields equal
the source polymorphic IsProofOfStake, PrevoutStake and StakeTime results;
in particular assigning a Block through a header-typed reference stores the
transaction-derived classification. -/
theorem C4_assign (src : HeaderRef) (d : CBlockHeader)
    (ha : assignHeader src = some d) :
    (d.fStake = src.IsProofOfStake ∧ some d.prevoutStake = src.PrevoutStake ∧
      some d.nStakeTime = src.StakeTime) ∧
    (∀ b : CBlock, src = HeaderRef.blk b → d.fStake = b.IsProofOfStake) := by
  unfold assignHeader at ha
  rcases hpo : src.PrevoutStake with _ | po <;> rw [hpo] at ha
  · exact Option.noConfusion ha
  rcases hst : src.StakeTime with _ | st <;> rw [hst] at ha
  · exact Option.noConfusion ha
  cases Option.some.inj ha
  refine ⟨⟨rfl, rfl, rfl⟩, ?_⟩
  rintro b rfl
  rfl

/-- Claim C4 witness: assigning the concrete block blkEx through a
header-typed reference; the stored flag of blkEx is false but the
destination receives the derived classification true. -/
theorem C4_assign_witness :
    hdrExM.fStake = (HeaderRef.blk blkEx).IsProofOfStake ∧
      some hdrExM.prevoutStake = (HeaderRef.blk blkEx).PrevoutStake ∧
      some hdrExM.nStakeTime = (HeaderRef.blk blkEx).StakeTime :=
  (C4_assign (HeaderRef.blk blkEx) hdrExM (by decide)).1

/-- A block constructed from a proof-of-stake header with no transactions
attached: the stored flag is true and the transaction list is empty. -/
def blkHeaderOnlyPos : CBlock :=
  ⟨⟨1, 2, 3, 4, 5, 6, 7, [8], true, opA, 99⟩, [], false⟩

/-- Claim C5, evaluation at the failing input: a block built from a
proof-of-stake header with an empty transaction list is classified as proof
of stake through the stored-flag fallback, yet GetProofOfStake then
evaluates vtx[1] on the empty list, an out-of-range access (modelled as
none), while the sibling accessors degrade to the stored fallbacks. -/
theorem C5_getProofOfStake_fault :
    blkHeaderOnlyPos.IsProofOfStake = true ∧
    blkHeaderOnlyPos.GetProofOfStake = none ∧
    blkHeaderOnlyPos.PrevoutStake = some opA ∧
    blkHeaderOnlyPos.StakeTime = some 99 := by
  decide

theorem deserializeHeader_serialize (h : CBlockHeader) (r : List SerItem) :
    deserializeHeader (serializeHeaderItems h ++ r) = some (h, r) := rfl

theorem deserializeTxs_map (l : List CTransaction) (r : List SerItem) :
    deserializeTxs l.length (l.map SerItem.txItem ++ r) = some (l, r) := by
  induction l with
  | nil => rfl
  | cons t ts ih =>
    show deserializeTxs (ts.length + 1)
      (SerItem.txItem t :: (ts.map SerItem.txItem ++ r)) = _
    rw [deserializeTxs, ih]
    rfl

theorem deserializeHashes_map (l : List Nat) (r : List SerItem) :
    deserializeHashes l.length (l.map SerItem.u256 ++ r) = some (l, r) := by
  induction l with
  | nil => rfl
  | cons x xs ih =>
    show deserializeHashes (xs.length + 1)
      (SerItem.u256 x :: (xs.map SerItem.u256 ++ r)) = _
    rw [deserializeHashes, ih]
    rfl

theorem deserializeLocatorBody_serialize (loc : CBlockLocator) :
    deserializeLocatorBody
      (SerItem.compactSize loc.vHave.length :: loc.vHave.map SerItem.u256) =
      some (loc, []) := by
  have hh := deserializeHashes_map loc.vHave []
  rw [List.append_nil] at hh
  rw [deserializeLocatorBody, hh]
  rfl

/-- The mutated block and its stream, as produced by serializing blkEx. -/
def blkExM : CBlock := ⟨hdrExM, [txPlain, txCoinStake], false⟩

/-- The serialized stream of blkEx. -/
def strmEx : List SerItem :=
  serializeHeaderItems hdrExM ++
    SerItem.compactSize 2 :: [SerItem.txItem txPlain, SerItem.txItem txCoinStake]

/-- Claim C7: decoding the encoding is the identity, field for field, for
headers, blocks and locators; for a block the stake fields of the decoded
value are the recomputed-then-materialized values of the encoded block, and
the memory-only fChecked flag of a decoded block starts false. -/
theorem C7_roundTrip :
    (∀ h : CBlockHeader, deserializeHeader (serializeHeaderItems h) = some (h, [])) ∧
    (∀ (b b' : CBlock) (s : List SerItem), b.serializeBlock = some (b', s) →
      deserializeBlock s = some (⟨b'.header, b'.vtx, false⟩, [])) ∧
    (∀ (loc : CBlockLocator) (gh : Bool) (v : Int),
      deserializeLocator gh (loc.serializeLocator gh v) = some (loc, [])) := by
  refine ⟨fun h => rfl, ?_, ?_⟩
  · intro b b' s hg
    unfold CBlock.serializeBlock at hg
    rcases hpo : b.PrevoutStake with _ | po <;> rw [hpo] at hg
    · exact Option.noConfusion hg
    rcases hst : b.StakeTime with _ | st <;> rw [hst] at hg
    · exact Option.noConfusion hg
    cases Option.some.inj hg
    have htx := deserializeTxs_map b.vtx []
    rw [List.append_nil] at htx
    simp only [deserializeBlock, deserializeHeader_serialize, htx]
    rfl
  · intro loc gh v
    cases gh
    · show deserializeLocatorBody
        (SerItem.compactSize loc.vHave.length :: loc.vHave.map SerItem.u256) =
        some (loc, [])
      exact deserializeLocatorBody_serialize loc
    · show deserializeLocatorBody
        (SerItem.compactSize loc.vHave.length :: loc.vHave.map SerItem.u256) =
        some (loc, [])
      exact deserializeLocatorBody_serialize loc

/-- Claim C7 witness: round trip of the concrete block blkEx through its
serialized stream. -/
theorem C7_roundTrip_witness :
    deserializeBlock strmEx = some (CBlock.mk blkExM.header blkExM.vtx false, []) :=
  C7_roundTrip.2.1 blkEx blkExM strmEx (by decide)

/-- Claim C8: the encoded isStake, stakeOutpoint and stakeTime items are the
results of the polymorphic derivation methods at encode time, and the
stored fields are overwritten with those derived values before writing; a
plain header writes its own derivation results at positions 8, 9 and 10 of
the stream, and a block writes its transaction-derived results there. -/
theorem C8_serializeDerived :
    (∀ h : CBlockHeader,
      (serializeHeaderItems h).get? 8 = some (SerItem.boolItem h.IsProofOfStake) ∧
      (serializeHeaderItems h).get? 9 = some (SerItem.outpoint h.PrevoutStake) ∧
      (serializeHeaderItems h).get? 10 = some (SerItem.u32 h.StakeTime)) ∧
    (∀ (b b' : CBlock) (s : List SerItem), b.serializeBlock = some (b', s) →
      (b'.header.fStake = b.IsProofOfStake ∧
        some b'.header.prevoutStake = b.PrevoutStake ∧
        some b'.header.nStakeTime = b.StakeTime) ∧
      (s.get? 8 = some (SerItem.boolItem b.IsProofOfStake) ∧
        s.get? 9 = some (SerItem.outpoint b'.header.prevoutStake) ∧
        s.get? 10 = some (SerItem.u32 b'.header.nStakeTime))) := by
  refine ⟨fun h => ⟨rfl, rfl, rfl⟩, ?_⟩
  intro b b' s hg
  unfold CBlock.serializeBlock at hg
  rcases hpo : b.PrevoutStake with _ | po <;> rw [hpo] at hg
  · exact Option.noConfusion hg
  rcases hst : b.StakeTime with _ | st <;> rw [hst] at hg
  · exact Option.noConfusion hg
  cases Option.some.inj hg
  exact ⟨⟨rfl, rfl, rfl⟩, rfl, rfl, rfl⟩

/-- Claim C8 witness: the block blkEx stores a false stake flag, yet the
mutated header written to the stream carries the derived values. -/
theorem C8_serializeDerived_witness :
    (blkExM.header.fStake = blkEx.IsProofOfStake ∧
      some blkExM.header.prevoutStake = blkEx.PrevoutStake ∧
      some blkExM.header.nStakeTime = blkEx.StakeTime) ∧
    (strmEx.get? 8 = some (SerItem.boolItem blkEx.IsProofOfStake) ∧
      strmEx.get? 9 = some (SerItem.outpoint blkExM.header.prevoutStake) ∧
      strmEx.get? 10 = some (SerItem.u32 blkExM.header.nStakeTime)) :=
  C8_serializeDerived.2 blkEx blkExM strmEx (by decide)

/-- Claim C9: outside hash-computation context the locator encoding is the
version integer followed by the length-prefixed hash sequence; in
hash-computation context the version integer is omitted and only the hash
sequence is written, so the two encodings differ exactly by the leading
version item. -/
theorem C9_locatorVersionField (loc : CBlockLocator) (v : Int) :
    loc.serializeLocator false v = SerItem.i32 v :: loc.serializeLocator true v ∧
    loc.serializeLocator true v =
      SerItem.compactSize loc.vHave.length :: loc.vHave.map SerItem.u256 :=
  ⟨rfl, rfl⟩

end QtumBlock
